import Mathlib

/-!
Verification of the inactivity-tracking engine of
`longest-inactivity-tracker-tgbot` (files `src/services/inactivity_service.py`,
`src/storage/json_storage.py`, `src/storage/storage_interface.py`).

Python numbers (Unix timestamps, record seconds, ids, scores) are modelled
as exact `Int` values: the engine only subtracts and compares them, so every
property below is insensitive to the number representation, and integer
values keep the model kernel-evaluable on concrete inputs.
A JSON object's possibly-absent / possibly-`None`
key is an `Option` field.  The persisted dataset `{"groups": {...}}` is a
`Storage` whose `groups` field is an insertion-ordered association list
keyed by `str(group_id)`, mirroring a Python `dict`.
-/

/-- A Telegram user as the engine passes it around: `{'id': ..., 'name': ...}`. -/
structure UserRef where
  id : Int
  name : String
deriving DecidableEq, Repr

/-- One leaderboard entry: `{"name": ..., "score": ...}`. -/
structure ScoreEntry where
  name : String
  score : Int
deriving DecidableEq, Repr

/-- The two per-group leaderboards, keyed by `str(user_id)`. -/
structure Leaderboards where
  last_word : List (String × ScoreEntry)
  silence_breaker : List (String × ScoreEntry)
deriving DecidableEq, Repr

/-- One history entry as built in `update_inactivity`
(`inactivity_service.py` lines 53-58): `timestamp` is the wall-clock
`time.time()` value at the moment the record was broken. -/
structure HistoryEntry where
  record_seconds : Int
  timestamp : Int
  last_user : UserRef
  breaker_user : UserRef
deriving DecidableEq, Repr

/-- Per-group configuration: `{"announce_records": ...}`. -/
structure GroupConfig where
  announce_records : Bool
deriving DecidableEq, Repr

/-- The per-group JSON object.  `Option` fields model keys whose value may
be `None` (or which may be missing from a hand-written file). -/
structure GroupData where
  record_seconds : Option Int
  last_message_timestamp : Option Int
  last_user_info : Option UserRef
  leaderboards : Leaderboards
  history : List HistoryEntry
  config : GroupConfig
deriving DecidableEq, Repr

/-- The default group object materialized by `_get_group_data`
(`json_storage.py` lines 56-68). -/
def defaultGroupData : GroupData where
  record_seconds := some 0
  last_message_timestamp := none
  last_user_info := none
  leaderboards := ⟨[], []⟩
  history := []
  config := ⟨true⟩

/-- The in-memory dataset `self.data = {"groups": {...}}` of `JsonStorage`,
with the groups dict as an insertion-ordered association list. -/
structure Storage where
  groups : List (String × GroupData)
deriving DecidableEq, Repr

/-- Dict lookup `self.data["groups"].get(k)`. -/
def Storage.getG (s : Storage) (k : String) : Option GroupData :=
  (s.groups.find? (fun p => p.1 == k)).map (fun p => p.2)

/-- Dict assignment `self.data["groups"][k] = g`: replaces in place when the
key is present, appends otherwise (Python dicts keep insertion order). -/
def Storage.setG (s : Storage) (k : String) (g : GroupData) : Storage :=
  if (s.groups.find? (fun p => p.1 == k)).isSome then
    ⟨s.groups.map (fun p => if p.1 == k then (k, g) else p)⟩
  else
    ⟨s.groups ++ [(k, g)]⟩

/-- The group object a reader observes for `gid`: the stored one if the key
`str(gid)` is present, the §3 defaults otherwise (lazy materialization makes
the two indistinguishable to every getter). -/
def Storage.groupOf (s : Storage) (gid : Int) : GroupData :=
  (s.getG (toString gid)).getD defaultGroupData

/-- `JsonStorage._get_group_data` (`json_storage.py` lines 49-69): returns the
group's dict, inserting the default object first when the key is absent.  The
returned `Storage` is the possibly-extended dataset. -/
def _get_group_data (s : Storage) (gid : Int) : GroupData × Storage :=
  match s.getG (toString gid) with
  | some g => (g, s)
  | none => (defaultGroupData, s.setG (toString gid) defaultGroupData)

/-- `JsonStorage.get_record` (lines 71-73): `group_data.get("record_seconds")`. -/
def get_record (s : Storage) (gid : Int) : Option Int × Storage :=
  let r := _get_group_data s gid
  (r.1.record_seconds, r.2)

/-- `JsonStorage.set_record` (lines 75-78).  (`_save_data` only rewrites the
file and leaves `self.data` unchanged, so it has no effect on this model.) -/
def set_record (s : Storage) (gid : Int) (record_seconds : Int) : Storage :=
  let r := _get_group_data s gid
  r.2.setG (toString gid) { r.1 with record_seconds := some record_seconds }

/-- `JsonStorage.get_last_message_timestamp` (lines 80-82). -/
def get_last_message_timestamp (s : Storage) (gid : Int) : Option Int × Storage :=
  let r := _get_group_data s gid
  (r.1.last_message_timestamp, r.2)

/-- `JsonStorage.set_last_message_timestamp` (lines 84-87). -/
def set_last_message_timestamp (s : Storage) (gid : Int) (timestamp : Int) : Storage :=
  let r := _get_group_data s gid
  r.2.setG (toString gid) { r.1 with last_message_timestamp := some timestamp }

/-- `JsonStorage.get_last_user_info` (lines 89-91). -/
def get_last_user_info (s : Storage) (gid : Int) : Option UserRef × Storage :=
  let r := _get_group_data s gid
  (r.1.last_user_info, r.2)

/-- `JsonStorage.set_last_user_info` (lines 93-96). -/
def set_last_user_info (s : Storage) (gid : Int) (user_info : UserRef) : Storage :=
  let r := _get_group_data s gid
  r.2.setG (toString gid) { r.1 with last_user_info := some user_info }

/-- The net effect of `update_leaderboard`'s body on one board dict
(`json_storage.py` lines 115-121): insert `{"name": user_name, "score": 0}`
when the user key is absent, then `score += 1` and `name = user_name`. -/
def boardUpdate (b : List (String × ScoreEntry)) (uid uname : String) :
    List (String × ScoreEntry) :=
  match b.find? (fun p => p.1 == uid) with
  | none => b ++ [(uid, ⟨uname, 0 + 1⟩)]
  | some p => b.map (fun q => if q.1 == uid then (uid, ⟨uname, p.2.score + 1⟩) else q)

/-- `JsonStorage.update_leaderboard` (lines 111-123).  The `board` string
indexes `leaderboards[board]`; the engine only ever passes `"last_word"` or
`"silence_breaker"` (any other name would raise `KeyError` in Python). -/
def update_leaderboard (s : Storage) (gid : Int) (user_id : Int)
    (user_name board : String) : Storage :=
  let r := _get_group_data s gid
  let lbs := r.1.leaderboards
  let lbs2 :=
    if board = "last_word" then
      Leaderboards.mk (boardUpdate lbs.last_word (toString user_id) user_name)
        lbs.silence_breaker
    else if board = "silence_breaker" then
      Leaderboards.mk lbs.last_word
        (boardUpdate lbs.silence_breaker (toString user_id) user_name)
    else lbs
  r.2.setG (toString gid) { r.1 with leaderboards := lbs2 }

/-- `JsonStorage.get_leaderboard` (lines 107-109). -/
def get_leaderboard (s : Storage) (gid : Int) : Leaderboards × Storage :=
  let r := _get_group_data s gid
  (r.1.leaderboards, r.2)

/-- `JsonStorage.get_history` (lines 125-127). -/
def get_history (s : Storage) (gid : Int) : List HistoryEntry × Storage :=
  let r := _get_group_data s gid
  (r.1.history, r.2)

/-- `JsonStorage.add_to_history` (lines 129-133): `history.append(entry)` on
the aliased list inside the group dict. -/
def add_to_history (s : Storage) (gid : Int) (record_entry : HistoryEntry) : Storage :=
  let r := _get_group_data s gid
  r.2.setG (toString gid) { r.1 with history := r.1.history ++ [record_entry] }

/-- Modelled from the spec: the engine's persistence flush `storage.save()`
(missing from `JsonStorage`, see the dispatch model below).  The spec's
gateway makes every write durable by rewriting the file in full; the
reference backend's `_save_data` does exactly that and leaves the in-memory
dataset unchanged, so the flush is the identity on the logical state. -/
def storage_save (s : Storage) : Storage := s

/-- Modelled from the spec: `deleteGroup(group) → void — deletes all stored
state for the group`.  The method `delete_group_data` is called by
`clean_stats` but defined nowhere in the repository. -/
def delete_group_data (s : Storage) (gid : Int) : Storage :=
  ⟨s.groups.filter (fun p => !(p.1 == toString gid))⟩

/-- The outcome of reading the persistence file in `JsonStorage._load_data`
(`json_storage.py` lines 25-37): the file may be absent
(`os.path.exists` false), unreadable (`IOError`), corrupted
(`json.JSONDecodeError`), or parse to a dataset. -/
inductive LoadOutcome where
  | fileMissing : LoadOutcome
  | ioFailure : String → LoadOutcome
  | jsonDecodeFailure : String → LoadOutcome
  | parsed : Storage → LoadOutcome
deriving DecidableEq

/-- `JsonStorage._load_data` (lines 25-37): total — every failure outcome is
handled locally by substituting the default dataset `{"groups": {}}`; no
load-time error reaches the caller. -/
def load_data : LoadOutcome → Storage
  | LoadOutcome.fileMissing => ⟨[]⟩
  | LoadOutcome.ioFailure _ => ⟨[]⟩
  | LoadOutcome.jsonDecodeFailure _ => ⟨[]⟩
  | LoadOutcome.parsed d => d

/-- `InactivityService.update_inactivity` (`inactivity_service.py` lines
22-66), composed with the `JsonStorage` methods above.  `now` is the
wall-clock `time.time()` read at line 55.  The `storage.save()` calls at
lines 39, 61 and 65 are the spec-modelled flush `storage_save`. -/
def update_inactivity (s : Storage) (group_id : Int) (current_timestamp : Int)
    (user_info : UserRef) (now : Int) : Option (Int × UserRef) × Storage :=
  let r1 := get_last_message_timestamp s group_id
  let r2 := get_last_user_info r1.2 group_id
  let s1 := set_last_message_timestamp r2.2 group_id current_timestamp
  let s2 := set_last_user_info s1 group_id user_info
  match r1.1, r2.1 with
  | some lt, some lu =>
    let interval := current_timestamp - lt
    let r3 := get_record s2 group_id
    let newRecordStep := fun (st : Storage) =>
      let st := set_record st group_id interval
      let st := update_leaderboard st group_id lu.id lu.name "last_word"
      let st := update_leaderboard st group_id user_info.id user_info.name "silence_breaker"
      let st := add_to_history st group_id ⟨interval, now, lu, user_info⟩
      (some (interval, lu), storage_save st)
    match r3.1 with
    | none => newRecordStep r3.2
    | some r =>
      if interval > r then newRecordStep r3.2
      else (none, storage_save r3.2)
  | _, _ => (none, storage_save s2)

/-- `InactivityService.get_current_record` (lines 68-76):
`record if record is not None else 0.0`. -/
def get_current_record (s : Storage) (gid : Int) : Int × Storage :=
  let r := get_record s gid
  (match r.1 with
   | some v => v
   | none => 0, r.2)

/-- `InactivityService.seed_record` (lines 86-94). -/
def seed_record (s : Storage) (gid : Int) (seconds : Int) : Storage :=
  storage_save (set_record s gid seconds)

/-- `InactivityService.clean_stats` (lines 96-99). -/
def clean_stats (s : Storage) (gid : Int) : Storage :=
  storage_save (delete_group_data s gid)

/-! ### Association-list lemmas (Python `dict` semantics) -/

theorem find?_app_of_none {α} (p : α → Bool) (l1 l2 : List α)
    (h : l1.find? p = none) : (l1 ++ l2).find? p = l2.find? p := by
  induction l1 with
  | nil => rfl
  | cons a t ih =>
    cases hp : p a <;> simp only [List.cons_append, List.find?_cons, hp] at h ⊢
    · exact ih h
    · exact absurd h (by simp)

theorem find?_map_replace {β} (l : List (String × β)) (k : String) (g : β) :
    ((l.map (fun p => if p.1 == k then (k, g) else p)).find? (fun p => p.1 == k))
      = if (l.find? (fun p => p.1 == k)).isSome then some (k, g) else none := by
  induction l with
  | nil => rfl
  | cons a t ih =>
    cases hp : (a.1 == k)
    case false =>
      have hfa : (if a.1 == k then (k, g) else a) = a := by rw [hp]; rfl
      rw [List.map_cons, hfa,
        @List.find?_cons_of_neg _ (fun p => p.1 == k) a _ (by simp [hp]),
        @List.find?_cons_of_neg _ (fun p => p.1 == k) a t (by simp [hp]), ih]
    case true =>
      have hfa : (if a.1 == k then (k, g) else a) = (k, g) := by rw [hp]; rfl
      rw [List.map_cons, hfa,
        @List.find?_cons_of_pos _ (fun p => p.1 == k) (k, g) _ (by simp),
        @List.find?_cons_of_pos _ (fun p => p.1 == k) a t hp]
      simp

theorem find?_map_replace_other {β} (l : List (String × β)) (k k2 : String) (g : β)
    (h : (k == k2) = false) :
    ((l.map (fun p => if p.1 == k then (k, g) else p)).find? (fun p => p.1 == k2))
      = l.find? (fun p => p.1 == k2) := by
  induction l with
  | nil => rfl
  | cons a t ih =>
    cases hp : (a.1 == k)
    case false =>
      have hfa : (if a.1 == k then (k, g) else a) = a := by rw [hp]; rfl
      cases hq : (a.1 == k2)
      case false =>
        rw [List.map_cons, hfa,
          @List.find?_cons_of_neg _ (fun p => p.1 == k2) a _ (by simp [hq]),
          @List.find?_cons_of_neg _ (fun p => p.1 == k2) a t (by simp [hq]), ih]
      case true =>
        rw [List.map_cons, hfa,
          @List.find?_cons_of_pos _ (fun p => p.1 == k2) a _ hq,
          @List.find?_cons_of_pos _ (fun p => p.1 == k2) a t hq]
    case true =>
      have hfa : (if a.1 == k then (k, g) else a) = (k, g) := by rw [hp]; rfl
      have ha2 : (a.1 == k2) = false := by
        have ha : a.1 = k := eq_of_beq hp
        rw [ha]; exact h
      rw [List.map_cons, hfa,
        @List.find?_cons_of_neg _ (fun p => p.1 == k2) (k, g) _ (by simp [h]),
        @List.find?_cons_of_neg _ (fun p => p.1 == k2) a t (by simp [ha2]), ih]

theorem find?_filter_not {β} (l : List (String × β)) (k : String) :
    ((l.filter (fun p => !(p.1 == k))).find? (fun p => p.1 == k)) = none := by
  induction l with
  | nil => rfl
  | cons a t ih =>
    rw [List.filter_cons]
    cases hp : (a.1 == k)
    case false =>
      simp only [hp, Bool.not_false, if_pos]
      rw [@List.find?_cons_of_neg _ (fun p => p.1 == k) a _ (by simp [hp])]
      exact ih
    case true =>
      simp only [hp, Bool.not_true, Bool.false_eq_true, if_false]
      exact ih

theorem getG_setG_self (s : Storage) (k : String) (g : GroupData) :
    (s.setG k g).getG k = some g := by
  unfold Storage.setG Storage.getG
  cases hf : (s.groups.find? (fun p => p.1 == k))
  case none =>
    simp only [Option.isSome_none, Bool.false_eq_true, if_false]
    rw [find?_app_of_none _ _ _ hf,
      @List.find?_cons_of_pos _ (fun p => p.1 == k) (k, g) _ (by simp)]
    rfl
  case some p =>
    simp only [Option.isSome_some, if_true]
    rw [find?_map_replace, hf]
    rfl

/-! ### Effect of each storage operation on the observed group object -/

theorem gg_fst (s : Storage) (gid : Int) :
    (_get_group_data s gid).1 = s.groupOf gid := by
  unfold _get_group_data Storage.groupOf
  cases h : s.getG (toString gid) <;> simp [h]

theorem gg_snd_groupOf (s : Storage) (gid : Int) :
    ((_get_group_data s gid).2).groupOf gid = s.groupOf gid := by
  unfold _get_group_data
  cases h : s.getG (toString gid)
  case none => simp [Storage.groupOf, getG_setG_self, h]
  case some g => simp [Storage.groupOf, h]

theorem find?_app_of_some {α} (p : α → Bool) (l1 l2 : List α) (x : α)
    (h : l1.find? p = some x) : (l1 ++ l2).find? p = some x := by
  induction l1 with
  | nil => exact absurd h (by simp)
  | cons a t ih =>
    cases hp : p a <;> simp only [List.cons_append, List.find?_cons, hp] at h ⊢
    · exact ih h
    · exact h

theorem groupOf_setG (s : Storage) (k : String) (g : GroupData) (gid : Int)
    (hk : toString gid = k) : (s.setG k g).groupOf gid = g := by
  subst hk
  unfold Storage.groupOf
  rw [getG_setG_self]
  rfl

theorem glmt_fst (s : Storage) (gid : Int) :
    (get_last_message_timestamp s gid).1 = (s.groupOf gid).last_message_timestamp := by
  simp only [get_last_message_timestamp]
  rw [gg_fst]

theorem glmt_snd (s : Storage) (gid : Int) :
    (get_last_message_timestamp s gid).2 = (_get_group_data s gid).2 := rfl

theorem glui_fst (s : Storage) (gid : Int) :
    (get_last_user_info s gid).1 = (s.groupOf gid).last_user_info := by
  simp only [get_last_user_info]
  rw [gg_fst]

theorem glui_snd (s : Storage) (gid : Int) :
    (get_last_user_info s gid).2 = (_get_group_data s gid).2 := rfl

theorem get_record_fst (s : Storage) (gid : Int) :
    (get_record s gid).1 = (s.groupOf gid).record_seconds := by
  simp only [get_record]
  rw [gg_fst]

theorem get_record_snd (s : Storage) (gid : Int) :
    (get_record s gid).2 = (_get_group_data s gid).2 := rfl

theorem set_record_groupOf (s : Storage) (gid : Int) (v : Int) :
    (set_record s gid v).groupOf gid
      = { s.groupOf gid with record_seconds := some v } := by
  simp only [set_record]
  rw [groupOf_setG _ _ _ _ rfl, gg_fst]

theorem set_lmt_groupOf (s : Storage) (gid : Int) (v : Int) :
    (set_last_message_timestamp s gid v).groupOf gid
      = { s.groupOf gid with last_message_timestamp := some v } := by
  simp only [set_last_message_timestamp]
  rw [groupOf_setG _ _ _ _ rfl, gg_fst]

theorem set_lui_groupOf (s : Storage) (gid : Int) (u : UserRef) :
    (set_last_user_info s gid u).groupOf gid
      = { s.groupOf gid with last_user_info := some u } := by
  simp only [set_last_user_info]
  rw [groupOf_setG _ _ _ _ rfl, gg_fst]

theorem add_to_history_groupOf (s : Storage) (gid : Int) (e : HistoryEntry) :
    (add_to_history s gid e).groupOf gid
      = { s.groupOf gid with history := (s.groupOf gid).history ++ [e] } := by
  simp only [add_to_history]
  rw [groupOf_setG _ _ _ _ rfl, gg_fst]

theorem update_leaderboard_lw_groupOf (s : Storage) (gid uid : Int) (uname : String) :
    (update_leaderboard s gid uid uname "last_word").groupOf gid
      = { s.groupOf gid with
          leaderboards := Leaderboards.mk
            (boardUpdate (s.groupOf gid).leaderboards.last_word (toString uid) uname)
            (s.groupOf gid).leaderboards.silence_breaker } := by
  simp only [update_leaderboard]
  rw [groupOf_setG _ _ _ _ rfl, gg_fst]
  simp

theorem update_leaderboard_sb_groupOf (s : Storage) (gid uid : Int) (uname : String) :
    (update_leaderboard s gid uid uname "silence_breaker").groupOf gid
      = { s.groupOf gid with
          leaderboards := Leaderboards.mk
            (s.groupOf gid).leaderboards.last_word
            (boardUpdate (s.groupOf gid).leaderboards.silence_breaker (toString uid) uname) } := by
  simp only [update_leaderboard]
  rw [groupOf_setG _ _ _ _ rfl, gg_fst]
  simp

/-! ### Leaderboard scores -/

/-- The score stored for user key `uid` on one board, `0` when the user has
no entry yet (matching the display layer's reading of absent entries). -/
def boardScore (b : List (String × ScoreEntry)) (uid : String) : Int :=
  match b.find? (fun p => p.1 == uid) with
  | some p => p.2.score
  | none => 0

theorem boardUpdate_eq_of_none (b : List (String × ScoreEntry)) (uid uname : String)
    (hf : b.find? (fun p => p.1 == uid) = none) :
    boardUpdate b uid uname = b ++ [(uid, ⟨uname, 0 + 1⟩)] := by
  unfold boardUpdate
  rw [hf]

theorem boardUpdate_eq_of_some (b : List (String × ScoreEntry)) (uid uname : String)
    (p : String × ScoreEntry) (hf : b.find? (fun q => q.1 == uid) = some p) :
    boardUpdate b uid uname
      = b.map (fun q => if q.1 == uid then (uid, ⟨uname, p.2.score + 1⟩) else q) := by
  unfold boardUpdate
  rw [hf]

theorem boardScore_boardUpdate_self (b : List (String × ScoreEntry)) (uid uname : String) :
    boardScore (boardUpdate b uid uname) uid = boardScore b uid + 1 := by
  cases hf : b.find? (fun p => p.1 == uid)
  case none =>
    rw [boardUpdate_eq_of_none b uid uname hf]
    unfold boardScore
    rw [find?_app_of_none _ _ _ hf,
      @List.find?_cons_of_pos (String × ScoreEntry) (fun p => p.1 == uid)
        (uid, ScoreEntry.mk uname (0 + 1)) [] (by simp),
      hf]
  case some p =>
    rw [boardUpdate_eq_of_some b uid uname p hf]
    unfold boardScore
    rw [find?_map_replace, hf]
    simp

theorem boardScore_boardUpdate_other (b : List (String × ScoreEntry))
    (uid uname uid2 : String) (h : (uid == uid2) = false) :
    boardScore (boardUpdate b uid uname) uid2 = boardScore b uid2 := by
  cases hf : b.find? (fun p => p.1 == uid)
  case none =>
    rw [boardUpdate_eq_of_none b uid uname hf]
    unfold boardScore
    cases hf2 : b.find? (fun p => p.1 == uid2)
    case none =>
      rw [find?_app_of_none _ _ _ hf2,
        @List.find?_cons_of_neg (String × ScoreEntry) (fun p => p.1 == uid2)
          (uid, ScoreEntry.mk uname (0 + 1)) [] (by simp [h])]
      rfl
    case some q =>
      rw [find?_app_of_some _ _ _ _ hf2]
  case some p =>
    rw [boardUpdate_eq_of_some b uid uname p hf]
    unfold boardScore
    rw [find?_map_replace_other _ _ _ _ h]

/-! ### The net effect of one `update_inactivity` call -/

/-- The always-applied tracking write of `update_inactivity` (source lines
34-35): overwrite `last_message_timestamp` and `last_user_info`. -/
def trackUpdate (g : GroupData) (ts : Int) (u : UserRef) : GroupData :=
  { g with last_message_timestamp := some ts, last_user_info := some u }

/-- The full state change of a record-breaking `update_inactivity` call:
the tracking write, the record write, the two leaderboard increments and
the history append (source lines 45-59). -/
def recordUpdate (g : GroupData) (ts : Int) (u : UserRef) (now i : Int)
    (lu : UserRef) : GroupData where
  record_seconds := some i
  last_message_timestamp := some ts
  last_user_info := some u
  leaderboards := Leaderboards.mk
    (boardUpdate g.leaderboards.last_word (toString lu.id) lu.name)
    (boardUpdate g.leaderboards.silence_breaker (toString u.id) u.name)
  history := g.history ++ [⟨i, now, lu, u⟩]
  config := g.config

theorem ui_out (s : Storage) (gid ts : Int) (u : UserRef) (now : Int) :
    (update_inactivity s gid ts u now).1 =
      match (s.groupOf gid).last_message_timestamp, (s.groupOf gid).last_user_info with
      | some lt, some lu =>
        match (s.groupOf gid).record_seconds with
        | none => some (ts - lt, lu)
        | some r => if ts - lt > r then some (ts - lt, lu) else none
      | _, _ => none := by
  cases hlt : (s.groupOf gid).last_message_timestamp with
  | none =>
    simp only [update_inactivity, glmt_fst, glmt_snd, glui_fst, glui_snd,
      gg_snd_groupOf, hlt]
  | some lt =>
    cases hlu : (s.groupOf gid).last_user_info with
    | none =>
      simp only [update_inactivity, glmt_fst, glmt_snd, glui_fst, glui_snd,
        gg_snd_groupOf, hlt, hlu]
    | some lu =>
      cases hrec : (s.groupOf gid).record_seconds with
      | none =>
        simp only [update_inactivity, glmt_fst, glmt_snd, glui_fst, glui_snd,
          gg_snd_groupOf, get_record_fst, get_record_snd, set_lui_groupOf,
          set_lmt_groupOf, hlt, hlu, hrec]
      | some r =>
        by_cases hgt : ts - lt > r
        · simp only [update_inactivity, glmt_fst, glmt_snd, glui_fst, glui_snd,
            gg_snd_groupOf, get_record_fst, get_record_snd, set_lui_groupOf,
            set_lmt_groupOf, hlt, hlu, hrec, hgt]
          simp
        · simp only [update_inactivity, glmt_fst, glmt_snd, glui_fst, glui_snd,
            gg_snd_groupOf, get_record_fst, get_record_snd, set_lui_groupOf,
            set_lmt_groupOf, hlt, hlu, hrec, hgt]
          simp


theorem ui_groupOf (s : Storage) (gid ts : Int) (u : UserRef) (now : Int) :
    ((update_inactivity s gid ts u now).2).groupOf gid =
      match (s.groupOf gid).last_message_timestamp, (s.groupOf gid).last_user_info with
      | some lt, some lu =>
        match (s.groupOf gid).record_seconds with
        | none => recordUpdate (s.groupOf gid) ts u now (ts - lt) lu
        | some r =>
          if ts - lt > r then recordUpdate (s.groupOf gid) ts u now (ts - lt) lu
          else trackUpdate (s.groupOf gid) ts u
      | _, _ => trackUpdate (s.groupOf gid) ts u := by
  cases hlt : (s.groupOf gid).last_message_timestamp with
  | none =>
    simp only [update_inactivity, storage_save, glmt_fst, glmt_snd, glui_fst,
      glui_snd, gg_snd_groupOf, set_lui_groupOf, set_lmt_groupOf, trackUpdate, hlt]
  | some lt =>
    cases hlu : (s.groupOf gid).last_user_info with
    | none =>
      simp only [update_inactivity, storage_save, glmt_fst, glmt_snd, glui_fst,
        glui_snd, gg_snd_groupOf, set_lui_groupOf, set_lmt_groupOf, trackUpdate,
        hlt, hlu]
    | some lu =>
      cases hrec : (s.groupOf gid).record_seconds with
      | none =>
        simp only [update_inactivity, glmt_fst, glmt_snd, glui_fst, glui_snd,
          gg_snd_groupOf, get_record_fst, get_record_snd, set_lui_groupOf,
          set_lmt_groupOf, hlt, hlu, hrec]
        simp only [storage_save, add_to_history_groupOf, update_leaderboard_sb_groupOf,
          update_leaderboard_lw_groupOf, set_record_groupOf, get_record_snd, glui_snd,
          glmt_snd, gg_snd_groupOf, set_lui_groupOf, set_lmt_groupOf]
        simp [recordUpdate]
      | some r =>
        by_cases hgt : ts - lt > r
        · simp only [update_inactivity, glmt_fst, glmt_snd, glui_fst, glui_snd,
            gg_snd_groupOf, get_record_fst, get_record_snd, set_lui_groupOf,
            set_lmt_groupOf, hlt, hlu, hrec, hgt]
          simp only [if_true]
          simp only [storage_save, add_to_history_groupOf, update_leaderboard_sb_groupOf,
            update_leaderboard_lw_groupOf, set_record_groupOf, get_record_snd, glui_snd,
            glmt_snd, gg_snd_groupOf, set_lui_groupOf, set_lmt_groupOf]
          simp [recordUpdate]
        · simp only [update_inactivity, glmt_fst, glmt_snd, glui_fst, glui_snd,
            gg_snd_groupOf, get_record_fst, get_record_snd, set_lui_groupOf,
            set_lmt_groupOf, hlt, hlu, hrec, hgt]
          simp only [if_false]
          simp only [storage_save, set_lui_groupOf, set_lmt_groupOf, glui_snd,
            glmt_snd, gg_snd_groupOf]
          simp [trackUpdate]

/-! ### Event streams -/

/-- One inbound message event for `update_inactivity`: the message's Unix
timestamp, its sender, and the wall-clock `time.time()` value the call would
read when breaking a record. -/
structure MsgEvent where
  ts : Int
  user : UserRef
  now : Int
deriving DecidableEq, Repr

/-- Repeated `update_inactivity` calls for one group, with no seed or reset
interleaved. -/
def processSeq (s : Storage) (gid : Int) : List MsgEvent → Storage
  | [] => s
  | e :: rest => processSeq (update_inactivity s gid e.ts e.user e.now).2 gid rest

theorem processSeq_append (s : Storage) (gid : Int) (l1 l2 : List MsgEvent) :
    processSeq s gid (l1 ++ l2) = processSeq (processSeq s gid l1) gid l2 := by
  induction l1 generalizing s with
  | nil => rfl
  | cons e t ih =>
    simp only [List.cons_append, processSeq]
    exact ih _

theorem record_step_mono (s : Storage) (gid ts : Int) (u : UserRef) (now r : Int)
    (h : (s.groupOf gid).record_seconds = some r) :
    ∃ r2, (((update_inactivity s gid ts u now).2).groupOf gid).record_seconds = some r2
      ∧ r ≤ r2 := by
  rw [ui_groupOf]
  cases hlt : (s.groupOf gid).last_message_timestamp with
  | none => exact ⟨r, by simp [trackUpdate, h], le_refl r⟩
  | some lt =>
    cases hlu : (s.groupOf gid).last_user_info with
    | none => exact ⟨r, by simp [trackUpdate, h], le_refl r⟩
    | some lu =>
      rw [h]
      by_cases hgt : ts - lt > r
      · exact ⟨ts - lt, by simp [recordUpdate, hgt], le_of_lt hgt⟩
      · exact ⟨r, by simp [trackUpdate, hgt, h], le_refl r⟩

theorem record_seq_mono (gid : Int) (evs : List MsgEvent) (s : Storage) (r : Int)
    (h : (s.groupOf gid).record_seconds = some r) :
    ∃ r2, ((processSeq s gid evs).groupOf gid).record_seconds = some r2 ∧ r ≤ r2 := by
  induction evs generalizing s r with
  | nil => exact ⟨r, h, le_refl r⟩
  | cons e t ih =>
    obtain ⟨r1, h1, hle1⟩ := record_step_mono s gid e.ts e.user e.now r h
    obtain ⟨r2, h2, hle2⟩ := ih _ r1 h1
    exact ⟨r2, h2, le_trans hle1 hle2⟩

/-- The number of record-breaking events in a stream credited to breaker key
`uid` (counted as the run processes the stream). -/
def breakCount (s : Storage) (gid : Int) (uid : String) : List MsgEvent → Int
  | [] => 0
  | e :: rest =>
    (if ((update_inactivity s gid e.ts e.user e.now).1).isSome
        ∧ toString e.user.id = uid then 1 else 0)
    + breakCount (update_inactivity s gid e.ts e.user e.now).2 gid uid rest

/-- The number of record-breaking events in a stream. -/
def breakingCount (s : Storage) (gid : Int) : List MsgEvent → Nat
  | [] => 0
  | e :: rest =>
    (if ((update_inactivity s gid e.ts e.user e.now).1).isSome then 1 else 0)
    + breakingCount (update_inactivity s gid e.ts e.user e.now).2 gid rest

/-- The history entries appended by the record-breaking events of a stream,
in the order the records occur. -/
def breakEntries (s : Storage) (gid : Int) : List MsgEvent → List HistoryEntry
  | [] => []
  | e :: rest =>
    (match (update_inactivity s gid e.ts e.user e.now).1 with
     | some (i, pu) => [HistoryEntry.mk i e.now pu e.user]
     | none => [])
    ++ breakEntries (update_inactivity s gid e.ts e.user e.now).2 gid rest

theorem ui_history_step (s : Storage) (gid ts : Int) (u : UserRef) (now : Int) :
    (((update_inactivity s gid ts u now).2).groupOf gid).history
      = (s.groupOf gid).history
        ++ (match (update_inactivity s gid ts u now).1 with
            | some (i, pu) => [HistoryEntry.mk i now pu u]
            | none => []) := by
  rw [ui_groupOf, ui_out]
  cases hlt : (s.groupOf gid).last_message_timestamp with
  | none => simp [trackUpdate]
  | some lt =>
    cases hlu : (s.groupOf gid).last_user_info with
    | none => simp [trackUpdate]
    | some lu =>
      cases hrec : (s.groupOf gid).record_seconds with
      | none => simp [recordUpdate]
      | some r =>
        by_cases hgt : ts - lt > r
        · simp [recordUpdate, hgt]
        · simp [trackUpdate, hgt]

theorem ui_score_sb_step (s : Storage) (gid ts : Int) (u : UserRef) (now : Int)
    (uid : String) :
    boardScore ((((update_inactivity s gid ts u now).2).groupOf gid).leaderboards.silence_breaker) uid
      = boardScore ((s.groupOf gid).leaderboards.silence_breaker) uid
        + (match (update_inactivity s gid ts u now).1 with
           | some _ => if toString u.id = uid then (1 : Int) else 0
           | none => 0) := by
  have hbrk : ∀ b : List (String × ScoreEntry),
      boardScore (boardUpdate b (toString u.id) u.name) uid
        = boardScore b uid + (if toString u.id = uid then (1 : Int) else 0) := by
    intro b
    by_cases huid : toString u.id = uid
    · rw [huid, if_pos rfl, boardScore_boardUpdate_self]
    · rw [if_neg huid, boardScore_boardUpdate_other _ _ _ _ (by simp [huid]), add_zero]
  rw [ui_groupOf, ui_out]
  cases hlt : (s.groupOf gid).last_message_timestamp with
  | none => simp [trackUpdate]
  | some lt =>
    cases hlu : (s.groupOf gid).last_user_info with
    | none => simp [trackUpdate]
    | some lu =>
      cases hrec : (s.groupOf gid).record_seconds with
      | none => simp [recordUpdate, hbrk]
      | some r =>
        by_cases hgt : ts - lt > r
        · simp [recordUpdate, hgt, hbrk]
        · simp [trackUpdate, hgt]

theorem ui_score_lw_step (s : Storage) (gid ts : Int) (u : UserRef) (now : Int)
    (uid : String) :
    boardScore ((((update_inactivity s gid ts u now).2).groupOf gid).leaderboards.last_word) uid
      = boardScore ((s.groupOf gid).leaderboards.last_word) uid
        + (match (update_inactivity s gid ts u now).1 with
           | some (_, pu) => if toString pu.id = uid then (1 : Int) else 0
           | none => 0) := by
  have hbrk : ∀ (b : List (String × ScoreEntry)) (pu : UserRef),
      boardScore (boardUpdate b (toString pu.id) pu.name) uid
        = boardScore b uid + (if toString pu.id = uid then (1 : Int) else 0) := by
    intro b pu
    by_cases huid : toString pu.id = uid
    · rw [huid, if_pos rfl, boardScore_boardUpdate_self]
    · rw [if_neg huid, boardScore_boardUpdate_other _ _ _ _ (by simp [huid]), add_zero]
  rw [ui_groupOf, ui_out]
  cases hlt : (s.groupOf gid).last_message_timestamp with
  | none => simp [trackUpdate]
  | some lt =>
    cases hlu : (s.groupOf gid).last_user_info with
    | none => simp [trackUpdate]
    | some lu =>
      cases hrec : (s.groupOf gid).record_seconds with
      | none => simp [recordUpdate, hbrk]
      | some r =>
        by_cases hgt : ts - lt > r
        · simp [recordUpdate, hgt, hbrk]
        · simp [trackUpdate, hgt]

theorem seq_score_sb (gid : Int) (uid : String) (evs : List MsgEvent) (s : Storage) :
    boardScore (((processSeq s gid evs).groupOf gid).leaderboards.silence_breaker) uid
      = boardScore ((s.groupOf gid).leaderboards.silence_breaker) uid
        + breakCount s gid uid evs := by
  induction evs generalizing s with
  | nil => simp [processSeq, breakCount]
  | cons e t ih =>
    simp only [processSeq, breakCount]
    rw [ih _, ui_score_sb_step]
    have hind : (match (update_inactivity s gid e.ts e.user e.now).1 with
        | some _ => if toString e.user.id = uid then (1 : Int) else 0
        | none => 0)
        = if ((update_inactivity s gid e.ts e.user e.now).1).isSome
            ∧ toString e.user.id = uid then (1 : Int) else 0 := by
      cases ho : (update_inactivity s gid e.ts e.user e.now).1 <;>
        by_cases hb : toString e.user.id = uid <;> simp [hb]
    rw [hind]
    ring

theorem seq_history (gid : Int) (evs : List MsgEvent) (s : Storage) :
    ((processSeq s gid evs).groupOf gid).history
      = (s.groupOf gid).history ++ breakEntries s gid evs := by
  induction evs generalizing s with
  | nil => simp [processSeq, breakEntries]
  | cons e t ih =>
    simp only [processSeq, breakEntries]
    rw [ih _, ui_history_step, List.append_assoc]

theorem breakEntries_length (gid : Int) (evs : List MsgEvent) (s : Storage) :
    (breakEntries s gid evs).length = breakingCount s gid evs := by
  induction evs generalizing s with
  | nil => rfl
  | cons e t ih =>
    simp only [breakEntries, breakingCount, List.length_append]
    rw [ih _]
    cases ho : (update_inactivity s gid e.ts e.user e.now).1 <;> simp [ho]

/-! ### Attribute dispatch on the concrete `JsonStorage` backend -/

/-- A Python runtime error surfaced by the engine. -/
inductive PyErr where
  | attributeError : String → PyErr
deriving DecidableEq, Repr

/-- Every attribute a `JsonStorage` instance has: the two `__init__` fields
and the methods of the class body (`json_storage.py` lines 16-133). -/
def jsonStorageAttrs : List String :=
  ["db_path", "data", "_load_data", "_save_data", "_get_group_data",
   "get_record", "set_record", "get_last_message_timestamp",
   "set_last_message_timestamp", "get_last_user_info", "set_last_user_info",
   "get_group_config", "set_group_config", "get_leaderboard",
   "update_leaderboard", "get_history", "add_to_history"]

/-- The abstract methods declared by `StorageInterface`
(`storage_interface.py` lines 11-131). -/
def storageInterfaceMethods : List String :=
  ["get_record", "set_record", "get_last_message_timestamp",
   "set_last_message_timestamp", "get_last_user_info", "set_last_user_info",
   "get_leaderboard", "update_leaderboard", "get_history", "add_to_history",
   "get_group_config", "set_group_config"]

/-- Python attribute lookup of `storage.save` on a `JsonStorage` instance:
the name is not among the instance's attributes, so the access raises
`AttributeError` before anything runs. -/
def jsonStorage_save (s : Storage) : Except PyErr Storage :=
  if "save" ∈ jsonStorageAttrs then Except.ok (storage_save s)
  else Except.error (PyErr.attributeError "save")

/-- Python attribute lookup of `storage.delete_group_data` on a `JsonStorage`
instance, as invoked by `clean_stats`. -/
def jsonStorage_delete_group_data (s : Storage) (gid : Int) : Except PyErr Storage :=
  if "delete_group_data" ∈ jsonStorageAttrs then Except.ok (delete_group_data s gid)
  else Except.error (PyErr.attributeError "delete_group_data")

/-- `InactivityService.update_inactivity` composed with the actual
`JsonStorage` backend, where each `self.storage.save()` call (lines 39, 61,
65) goes through real attribute lookup. -/
def update_inactivity_on_json (s : Storage) (group_id : Int)
    (current_timestamp : Int) (user_info : UserRef) (now : Int) :
    Except PyErr (Option (Int × UserRef) × Storage) := do
  let r1 := get_last_message_timestamp s group_id
  let r2 := get_last_user_info r1.2 group_id
  let s1 := set_last_message_timestamp r2.2 group_id current_timestamp
  let s2 := set_last_user_info s1 group_id user_info
  match r1.1, r2.1 with
  | some lt, some lu =>
    let interval := current_timestamp - lt
    let r3 := get_record s2 group_id
    let newRecordStep := fun (st : Storage) => do
      let st := set_record st group_id interval
      let st := update_leaderboard st group_id lu.id lu.name "last_word"
      let st := update_leaderboard st group_id user_info.id user_info.name "silence_breaker"
      let st := add_to_history st group_id ⟨interval, now, lu, user_info⟩
      let st ← jsonStorage_save st
      return (some (interval, lu), st)
    match r3.1 with
    | none => newRecordStep r3.2
    | some r =>
      if interval > r then newRecordStep r3.2
      else do
        let st ← jsonStorage_save r3.2
        return (none, st)
  | _, _ => do
    let st ← jsonStorage_save s2
    return (none, st)

/-- `InactivityService.seed_record` composed with the actual `JsonStorage`
backend (line 94 calls `self.storage.save()`). -/
def seed_record_on_json (s : Storage) (gid : Int) (seconds : Int) :
    Except PyErr Storage := do
  let s := set_record s gid seconds
  jsonStorage_save s

/-- `InactivityService.clean_stats` composed with the actual `JsonStorage`
backend (line 98 calls `self.storage.delete_group_data(...)`, line 99
`self.storage.save()`). -/
def clean_stats_on_json (s : Storage) (gid : Int) : Except PyErr Storage := do
  let s ← jsonStorage_delete_group_data s gid
  jsonStorage_save s

/-! ### Claim theorems -/

theorem getG_delete (s : Storage) (gid : Int) :
    (delete_group_data s gid).getG (toString gid) = none := by
  unfold delete_group_data Storage.getG
  rw [find?_filter_not]
  rfl

/-- Demo users and states for concrete witnesses. -/
def uA : UserRef := ⟨1, "A"⟩

def uB : UserRef := ⟨2, "B"⟩

def tieDemoStorage : Storage :=
  ⟨[("5", { record_seconds := some 700, last_message_timestamp := some 1000,
            last_user_info := some uA, leaderboards := ⟨[], []⟩, history := [],
            config := ⟨true⟩ })]⟩

/-- C1: for every group with a prior last-message state, `update_inactivity`
sets a new record (returns the interval with the previous user, and stores
the interval as `record_seconds`) iff no record exists yet or the computed
interval strictly exceeds the current record; in particular when the
interval equals the current record, `record_seconds` is unchanged and the
call returns `none`. -/
theorem update_inactivity_strict_record_rule
    (s : Storage) (gid ts : Int) (u : UserRef) (now lt : Int) (lu : UserRef)
    (hlt : (s.groupOf gid).last_message_timestamp = some lt)
    (hlu : (s.groupOf gid).last_user_info = some lu) :
    (((update_inactivity s gid ts u now).1 = some (ts - lt, lu)
        ∧ (((update_inactivity s gid ts u now).2).groupOf gid).record_seconds
            = some (ts - lt))
      ↔ ((s.groupOf gid).record_seconds = none
          ∨ ∃ r, (s.groupOf gid).record_seconds = some r ∧ ts - lt > r))
    ∧ ∀ r, (s.groupOf gid).record_seconds = some r → ts - lt = r →
        ((update_inactivity s gid ts u now).1 = none
          ∧ (((update_inactivity s gid ts u now).2).groupOf gid).record_seconds
              = some r) := by
  cases hrec : (s.groupOf gid).record_seconds with
  | none =>
    have h1 : (update_inactivity s gid ts u now).1 = some (ts - lt, lu) := by
      simp only [ui_out, hlt, hlu, hrec]
    have h2 : (((update_inactivity s gid ts u now).2).groupOf gid).record_seconds
        = some (ts - lt) := by
      simp only [ui_groupOf, hlt, hlu, hrec]
      rfl
    refine ⟨⟨fun _ => Or.inl rfl, fun _ => ⟨h1, h2⟩⟩, fun r hr _ => ?_⟩
    exact absurd hr (by simp)
  | some r =>
    by_cases hgt : ts - lt > r
    · have h1 : (update_inactivity s gid ts u now).1 = some (ts - lt, lu) := by
        simp only [ui_out, hlt, hlu, hrec, hgt]
        simp
      have h2 : (((update_inactivity s gid ts u now).2).groupOf gid).record_seconds
          = some (ts - lt) := by
        simp only [ui_groupOf, hlt, hlu, hrec, hgt]
        simp [recordUpdate]
      refine ⟨⟨fun _ => Or.inr ⟨r, rfl, hgt⟩, fun _ => ⟨h1, h2⟩⟩, fun r2 hr2 htie => ?_⟩
      rw [Option.some.injEq] at hr2
      omega
    · have h1 : (update_inactivity s gid ts u now).1 = none := by
        simp only [ui_out, hlt, hlu, hrec, hgt]
        simp
      have h2 : (((update_inactivity s gid ts u now).2).groupOf gid).record_seconds
          = some r := by
        simp only [ui_groupOf, hlt, hlu, hrec, hgt]
        simp [trackUpdate, hrec]
      refine ⟨⟨fun hl => ?_, fun hor => ?_⟩, fun r2 hr2 _ => ?_⟩
      · rw [h1] at hl
        exact absurd hl.1 (by simp)
      · rcases hor with h0 | ⟨r2, hr2, hgt2⟩
        · exact absurd h0 (by simp)
        · rw [Option.some.injEq] at hr2
          omega
      · rw [Option.some.injEq] at hr2
        exact hr2 ▸ ⟨h1, h2⟩

/-- Concrete instance of C1's tie case: prior record 700, prior timestamp
1000, a message at 1700 (interval exactly 700) changes nothing and returns
`none`. -/
theorem update_inactivity_strict_record_rule_witness :
    (update_inactivity tieDemoStorage 5 1700 uB 2000).1 = none
    ∧ (((update_inactivity tieDemoStorage 5 1700 uB 2000).2).groupOf 5).record_seconds
        = some 700 :=
  (update_inactivity_strict_record_rule tieDemoStorage 5 1700 uB 2000 1000 uA
    (by decide) (by decide)).2 700 (by decide) (by decide)

/-- C3: for a group with no prior `last_message_timestamp` or no prior
`last_user_info`, `update_inactivity` returns `none`, and afterwards the
stored `last_message_timestamp` and `last_user_info` equal the call's
inputs. -/
theorem first_message_returns_no_change
    (s : Storage) (gid ts : Int) (u : UserRef) (now : Int)
    (h : (s.groupOf gid).last_message_timestamp = none
      ∨ (s.groupOf gid).last_user_info = none) :
    (update_inactivity s gid ts u now).1 = none
    ∧ (((update_inactivity s gid ts u now).2).groupOf gid).last_message_timestamp
        = some ts
    ∧ (((update_inactivity s gid ts u now).2).groupOf gid).last_user_info
        = some u := by
  cases hlt : (s.groupOf gid).last_message_timestamp with
  | none =>
    refine ⟨?_, ?_, ?_⟩ <;> simp only [ui_out, ui_groupOf, hlt] <;> simp [trackUpdate]
  | some lt =>
    cases hlu : (s.groupOf gid).last_user_info with
    | none =>
      refine ⟨?_, ?_, ?_⟩ <;> simp only [ui_out, ui_groupOf, hlt, hlu] <;>
        simp [trackUpdate]
    | some lu =>
      rw [hlt, hlu] at h
      rcases h with h | h <;> exact absurd h (by simp)

/-- Concrete instance of C3: the first message ever seen for a group. -/
theorem first_message_returns_no_change_witness :
    (update_inactivity (Storage.mk []) 1 1000 uA 1005).1 = none
    ∧ (((update_inactivity (Storage.mk []) 1 1000 uA 1005).2).groupOf 1).last_message_timestamp
        = some 1000
    ∧ (((update_inactivity (Storage.mk []) 1 1000 uA 1005).2).groupOf 1).last_user_info
        = some uA :=
  first_message_returns_no_change (Storage.mk []) 1 1000 uA 1005 (Or.inl (by decide))

/-- C4: with no reset or seed interleaved, the stored `record_seconds`
observed after each `update_inactivity` call is monotonically
non-decreasing along any event stream. -/
theorem record_seconds_monotone
    (s : Storage) (gid : Int) (evs1 evs2 : List MsgEvent) (r1 r2 : Int)
    (h1 : ((processSeq s gid evs1).groupOf gid).record_seconds = some r1)
    (h2 : ((processSeq s gid (evs1 ++ evs2)).groupOf gid).record_seconds = some r2) :
    r1 ≤ r2 := by
  rw [processSeq_append] at h2
  obtain ⟨r3, h3, hle⟩ := record_seq_mono gid evs2 (processSeq s gid evs1) r1 h1
  rw [h3, Option.some.injEq] at h2
  omega

def demoEvs : List MsgEvent := [⟨1000, uA, 1001⟩, ⟨1700, uB, 1701⟩]

/-- Concrete instance of C4: from a fresh group, the record observed after
no events is 0 and after two events (interval 700) is 700. -/
theorem record_seconds_monotone_witness :
    ((processSeq (Storage.mk []) 1 []).groupOf 1).record_seconds = some 0
    ∧ ((processSeq (Storage.mk []) 1 ([] ++ demoEvs)).groupOf 1).record_seconds = some 700
    ∧ (0 : Int) ≤ 700 :=
  ⟨by decide, by decide,
    record_seconds_monotone (Storage.mk []) 1 [] demoEvs 0 700 (by decide) (by decide)⟩

/-- C5: a record-breaking `update_inactivity` call adds exactly 1 to the
`last_word` score of the previous user and exactly 1 to the
`silence_breaker` score of the current user, and changes no other score; a
non-breaking call changes no score; over a stream, a user's
`silence_breaker` score grows by exactly the number of record-breaking
events crediting that user as breaker. -/
theorem leaderboard_scores_track_record_breaks
    (s : Storage) (gid ts : Int) (u : UserRef) (now : Int) (uid : String)
    (evs : List MsgEvent) :
    (boardScore ((((update_inactivity s gid ts u now).2).groupOf gid).leaderboards.silence_breaker) uid
      = boardScore ((s.groupOf gid).leaderboards.silence_breaker) uid
        + (match (update_inactivity s gid ts u now).1 with
           | some _ => if toString u.id = uid then (1 : Int) else 0
           | none => 0))
    ∧ (boardScore ((((update_inactivity s gid ts u now).2).groupOf gid).leaderboards.last_word) uid
      = boardScore ((s.groupOf gid).leaderboards.last_word) uid
        + (match (update_inactivity s gid ts u now).1 with
           | some (_, pu) => if toString pu.id = uid then (1 : Int) else 0
           | none => 0))
    ∧ boardScore (((processSeq s gid evs).groupOf gid).leaderboards.silence_breaker) uid
      = boardScore ((s.groupOf gid).leaderboards.silence_breaker) uid
        + breakCount s gid uid evs :=
  ⟨ui_score_sb_step s gid ts u now uid, ui_score_lw_step s gid ts u now uid,
    seq_score_sb gid uid evs s⟩

/-- C6: one `update_inactivity` call appends exactly the history entry of
its record-breaking outcome (and nothing on a non-breaking call), never
touching existing entries; over a stream the history is the initial history
followed by one entry per record-breaking event in chronological order. -/
theorem history_append_only
    (s : Storage) (gid ts : Int) (u : UserRef) (now : Int) (evs : List MsgEvent) :
    ((((update_inactivity s gid ts u now).2).groupOf gid).history
      = (s.groupOf gid).history
        ++ (match (update_inactivity s gid ts u now).1 with
            | some (i, pu) => [HistoryEntry.mk i now pu u]
            | none => []))
    ∧ ((processSeq s gid evs).groupOf gid).history
        = (s.groupOf gid).history ++ breakEntries s gid evs
    ∧ (breakEntries s gid evs).length = breakingCount s gid evs :=
  ⟨ui_history_step s gid ts u now, seq_history gid evs s,
    breakEntries_length gid evs s⟩

/-- C7: `seed_record` stores the given value as the record and leaves the
group's last-message state, both leaderboards, history and config
untouched. -/
theorem seed_record_frame (s : Storage) (gid seconds : Int) :
    ((seed_record s gid seconds).groupOf gid).record_seconds = some seconds
    ∧ ((seed_record s gid seconds).groupOf gid).last_message_timestamp
        = (s.groupOf gid).last_message_timestamp
    ∧ ((seed_record s gid seconds).groupOf gid).last_user_info
        = (s.groupOf gid).last_user_info
    ∧ ((seed_record s gid seconds).groupOf gid).leaderboards
        = (s.groupOf gid).leaderboards
    ∧ ((seed_record s gid seconds).groupOf gid).history = (s.groupOf gid).history
    ∧ ((seed_record s gid seconds).groupOf gid).config = (s.groupOf gid).config := by
  have h : (seed_record s gid seconds).groupOf gid
      = { s.groupOf gid with record_seconds := some seconds } := by
    simp only [seed_record, storage_save, set_record_groupOf]
  rw [h]
  exact ⟨rfl, rfl, rfl, rfl, rfl, rfl⟩

/-- C8: after `clean_stats`, the group's stored entry is gone;
`get_current_record` returns 0, and the group observed on next access is
the default object: empty leaderboards, empty history, announcements
enabled. -/
theorem clean_stats_resets_group (s : Storage) (gid : Int) :
    (get_current_record (clean_stats s gid) gid).1 = 0
    ∧ (clean_stats s gid).getG (toString gid) = none
    ∧ (clean_stats s gid).groupOf gid = defaultGroupData
    ∧ ((clean_stats s gid).groupOf gid).leaderboards = Leaderboards.mk [] []
    ∧ ((clean_stats s gid).groupOf gid).history = []
    ∧ ((clean_stats s gid).groupOf gid).config.announce_records = true := by
  have hg : (clean_stats s gid).getG (toString gid) = none := by
    simp only [clean_stats, storage_save]
    exact getG_delete s gid
  have hof : (clean_stats s gid).groupOf gid = defaultGroupData := by
    unfold Storage.groupOf
    rw [hg]
    rfl
  refine ⟨?_, hg, hof, ?_, ?_, ?_⟩
  · simp only [get_current_record, get_record_fst, hof]
    rfl
  · rw [hof]
    rfl
  · rw [hof]
    rfl
  · rw [hof]
    rfl

/-- C9 counterexample: `get_current_record` is not side-effect free — on a
dataset with no entry for group 7 it materializes the default group object,
changing the stored dataset. -/
theorem get_current_record_not_side_effect_free :
    (get_current_record (Storage.mk []) 7).2 ≠ Storage.mk [] := by decide

/-- C9 (amended): `get_current_record` returns the stored `record_seconds`
(0 when absent); it leaves the dataset unchanged when the group's entry
already exists, and otherwise only appends the default entry for that
group. -/
theorem get_current_record_amended (s : Storage) (gid : Int) :
    (get_current_record s gid).1
      = (match (s.groupOf gid).record_seconds with
         | some v => v
         | none => 0)
    ∧ (get_current_record s gid).2
      = (match s.getG (toString gid) with
         | some _ => s
         | none => Storage.mk (s.groups ++ [(toString gid, defaultGroupData)])) := by
  constructor
  · simp only [get_current_record, get_record_fst]
  · simp only [get_current_record, get_record_snd]
    unfold _get_group_data Storage.getG Storage.setG
    cases hf : s.groups.find? (fun p => p.1 == toString gid) with
    | some p => rfl
    | none => rfl

/-- C10: a missing, unreadable or corrupted persistence file makes
`_load_data` return the empty default dataset instead of surfacing a
load-time failure. -/
theorem load_failure_yields_empty_default (m1 m2 : String) :
    load_data LoadOutcome.fileMissing = Storage.mk []
    ∧ load_data (LoadOutcome.ioFailure m1) = Storage.mk []
    ∧ load_data (LoadOutcome.jsonDecodeFailure m2) = Storage.mk [] :=
  ⟨rfl, rfl, rfl⟩

/-- C2: every mutating engine operation, composed with the reference
`JsonStorage` backend, raises `AttributeError` before returning its
documented outcome: `update_inactivity` and `seed_record` on the missing
`save`, `clean_stats` on the missing `delete_group_data`; neither name is
declared by `StorageInterface` or defined by `JsonStorage`. -/
theorem mutating_ops_on_json_storage_raise_attribute_error
    (s : Storage) (gid ts : Int) (u : UserRef) (now seconds : Int) :
    update_inactivity_on_json s gid ts u now
      = Except.error (PyErr.attributeError "save")
    ∧ seed_record_on_json s gid seconds
      = Except.error (PyErr.attributeError "save")
    ∧ clean_stats_on_json s gid
      = Except.error (PyErr.attributeError "delete_group_data")
    ∧ "save" ∉ jsonStorageAttrs
    ∧ "delete_group_data" ∉ jsonStorageAttrs
    ∧ "save" ∉ storageInterfaceMethods
    ∧ "delete_group_data" ∉ storageInterfaceMethods := by
  have hs : ∀ st : Storage,
      jsonStorage_save st = Except.error (PyErr.attributeError "save") := by
    intro st
    unfold jsonStorage_save
    rw [if_neg (by decide)]
  have hd : ∀ st : Storage,
      jsonStorage_delete_group_data st gid
        = Except.error (PyErr.attributeError "delete_group_data") := by
    intro st
    unfold jsonStorage_delete_group_data
    rw [if_neg (by decide)]
  refine ⟨?_, ?_, ?_, by decide, by decide, by decide, by decide⟩
  · simp only [update_inactivity_on_json]
    split
    · split
      · simp only [hs]
        rfl
      · split
        · simp only [hs]
          rfl
        · simp only [hs]
          rfl
    · simp only [hs]
      rfl
  · simp only [seed_record_on_json]
    rw [hs]
  · simp only [clean_stats_on_json, hd]
    rfl
